import Mathlib

/-!
Shallow embedding of the BrainPy / NumpyBrain core pieces referenced by the
specification: the process-wide `dt` and backend globals of
`brainpy/math/__init__.py`, the `coo_atomic_sum` wrapper of
`extensions/brainpylib/atomic_sum.py`, and the `SynConn` constructor,
`_merge_steps` and `post_cond_by_post2syn` of
`npbrain/core_system/synapse_connection.py`.

Python floats are modelled as rationals (the code performs no
precision-sensitive float arithmetic in the parts under study), numpy
integer arrays as `List ℕ` tagged with a dtype, and raised Python
exceptions as the `.error` branch of `Except`.
-/

namespace BrainPy

/-- A Python value, as far as the embedded code inspects one:
`set_dt` checks `isinstance(dt, float)`, the `SynConn` delay handling
distinguishes `None`, `int`/`float` and everything else. -/
inductive PyVal where
  | float (x : ℚ)
  | int (n : ℤ)
  | str (s : String)
  | pynone
deriving DecidableEq, Repr

/-- `PyVal.isFloat v` is `isinstance(v, float)` (Python floats only:
a Python `int` is not an instance of `float`). -/
def PyVal.isFloat : PyVal → Bool
  | .float _ => true
  | _ => false

/-! ## brainpy/math/__init__.py : process-wide dt -/

/-- The module-level initial value `__dt = 0.1`. -/
def DT_DEFAULT : ℚ := 1 / 10

/-- `set_dt(dt)`: `assert isinstance(dt, float)` then `__dt = dt`.
Result is the new module state together with `some` error message when the
assert fires (in which case the global is left unchanged). -/
def set_dt (v : PyVal) (cur : ℚ) : ℚ × Option String :=
  match v with
  | .float x => (x, Option.none)
  | _ => (cur, some "AssertionError")

/-- `get_dt()`: returns the module-level `__dt`. -/
def get_dt (cur : ℚ) : ℚ := cur

/-! ## brainpy/math/__init__.py : backend selection -/

/-- The module-level initial value `BACKEND_NAME` set to `numpy`. -/
def BACKEND_NAME_DEFAULT : String := "numpy"

/-- `get_backend_name()`: returns the module-level `BACKEND_NAME`. -/
def get_backend_name (g : String) : String := g

/-- The message of the `ValueError` raised by `use_backend` for an
unrecognised name. -/
def unknownBackendMsg (name : String) : String :=
  "Unknown backend \"" ++ name ++ "\", now we only support: numpy, numba, jax."

/-- `use_backend(name)`: for `numpy`, `numba` or `jax` it imports the
corresponding module and sets `BACKEND_NAME = name`; otherwise it raises
`ValueError` before touching the global. Result is the new module state
together with `some` error message when the exception is raised. -/
def use_backend (name : String) (g : String) : String × Option String :=
  if name = "numpy" ∨ name = "numba" ∨ name = "jax" then (name, Option.none)
  else (g, some (unknownBackendMsg name))

/-! ## extensions/brainpylib/atomic_sum.py : coo_atomic_sum wrapper -/

/-- The integer dtypes the wrapper distinguishes. -/
inductive IDtype where
  | uint32
  | uint64
  | int32
  | int64
deriving DecidableEq, Repr

/-- The floating dtypes the wrapper distinguishes. -/
inductive FDtype where
  | float32
  | float64
  | float16
deriving DecidableEq, Repr

/-- A jax integer index array: its elements and its dtype. -/
structure IdxArray where
  data : List ℕ
  dtype : IDtype
deriving DecidableEq, Repr

/-- A jax floating value array: its elements and its dtype.  A 0-d scalar
is a singleton `data`; the `values = jnp.asarray([values])`
re-wrap in the wrapper keeps `size` and dtype unchanged, so the model elides `ndim`. -/
structure ValArray where
  data : List ℚ
  dtype : FDtype
deriving DecidableEq, Repr

/-- One constructor per `raise`/`assert` site of `coo_atomic_sum`, carrying
exactly the data interpolated into the corresponding message. -/
inductive AtomicSumErr where
  | noPreIds
  | lengthMismatch (lenPre lenPost : ℕ)
  | dtypeMismatch (dtypePre dtypePost : IDtype)
  | badIndexDtype (d : IDtype)
  | badValueDtype (d : FDtype)
  | maxOfEmpty
  | valuesTooShort (size maxPre : ℕ)
deriving DecidableEq, Repr

/-- The arguments handed to `coo_atomic_sum_p1.bind` when every check
passes (the native kernel behind the primitive is outside the wrapper). -/
structure BindCall where
  values : List ℚ
  pre_ids : List ℕ
  post_ids : List ℕ
  post_num : ℕ
deriving DecidableEq, Repr

/-- `Except.isOk`-style discriminator used to state that a call returned
rather than raised. -/
def exceptIsOk {ε α : Type} (e : Except ε α) : Bool :=
  match e with
  | .ok _ => true
  | .error _ => false

/-- Whether a wrapper outcome is the dtype-mismatch `ValueError`. -/
def isDtypeMismatchErr (e : Except AtomicSumErr BindCall) : Bool :=
  match e with
  | .error (.dtypeMismatch _ _) => true
  | _ => false

/-- `coo_atomic_sum(values, post_ids, post_num, pre_ids=None)`, the pure
validation part of the wrapper, check for check in source order:
when `size(values) != 1` a `pre_ids` must be given, otherwise
`pre_ids = post_ids`; then the length check, the `pre_ids.dtype !=
post_ids.dtype` check, the `post_ids.dtype in [uint32, uint64]` check, the
`values.dtype in [float32, float64]` check and the
`values.size != 1 and values.size <= pre_ids.max()` check (where
`jnp.max` of an empty array itself raises); if all pass, the arguments are
bound to the primitive.  No check compares `post_ids` against
`post_num`. -/
def coo_atomic_sum (values : ValArray) (post_ids : IdxArray) (post_num : ℕ)
    (pre_ids0 : Option IdxArray) : Except AtomicSumErr BindCall :=
  match (if values.data.length ≠ 1 then pre_ids0 else some post_ids) with
  | Option.none => .error .noPreIds
  | some pre_ids =>
    if pre_ids.data.length ≠ post_ids.data.length then
      .error (.lengthMismatch pre_ids.data.length post_ids.data.length)
    else if pre_ids.dtype ≠ post_ids.dtype then
      .error (.dtypeMismatch pre_ids.dtype post_ids.dtype)
    else if post_ids.dtype ≠ .uint32 ∧ post_ids.dtype ≠ .uint64 then
      .error (.badIndexDtype post_ids.dtype)
    else if values.dtype ≠ .float32 ∧ values.dtype ≠ .float64 then
      .error (.badValueDtype values.dtype)
    else if values.data.length ≠ 1 ∧ pre_ids.data = [] then
      .error .maxOfEmpty
    else if values.data.length ≠ 1 ∧ values.data.length ≤ pre_ids.data.foldr max 0 then
      .error (.valuesTooShort values.data.length (pre_ids.data.foldr max 0))
    else
      .ok ⟨values.data, pre_ids.data, post_ids.data, post_num⟩

/-! ## npbrain/core_system/synapse_connection.py : SynConn construction -/

/-- The `conn` argument of `SynConn.__init__` as the constructor inspects
it: `None`, a `Connector` (whose call yields the index arrays
`conn_res[i]`, `conn_res[j]`; the `Connector` classes live outside
the sources of this file, so the produced arrays are taken as given), a 2-D (or
other-rank) numpy array carrying its shape and entries, a dict with
optional `i`/`j` items, or a value of any other type. -/
inductive PyConn where
  | noneConn
  | connector (i j : List ℕ)
  | arr (shape : List ℕ) (entries : List (List ℤ))
  | dict (i j : Option (List ℕ))
  | badType
deriving DecidableEq, Repr

/-- One constructor per `assert`/`raise` site reachable in
`SynConn.__init__`, carrying the data interpolated into the message.
`enumerateIntTypeError` is the `TypeError` Python raises for
`enumerate(pre_group.num)` (an `int` is not iterable). -/
inductive SynConnErr where
  | connRequired
  | notNdim2 (nd : ℕ)
  | connShapeMismatch (expectedPre expectedPost : ℕ)
  | enumerateIntTypeError
  | missingI
  | missingJ
  | connTypeError
  | numRequired
  | numOutOfRange (n : ℕ)
  | delayTypeError
deriving DecidableEq, Repr

/-- The attributes a successful `SynConn.__init__` run has fixed before
handing over to `BaseEnsemble.__init__`: the synapse count `num`, the
extracted edge arrays (`pre_ids`, `post_ids`) when pre/post groups were
given, and `delay_len`. -/
structure SynConnData where
  num : ℕ
  ids : Option (List ℕ × List ℕ)
  delay_len : ℤ
deriving DecidableEq, Repr

/-- The connection-extraction block of `SynConn.__init__` (the branch
where both groups are given): a `Connector` yields its `i`/`j`
arrays; an ndarray is checked for `ndim == 2` and for shape
`(pre_group.num, post_group.num)`, after which the loop header
`for i in enumerate(pre_group.num)` raises `TypeError` before any entry
of `conn` is read; a dict must carry an `i` and a `j` item; anything else fails
the `isinstance(conn, dict)` assert. -/
def synConnEdges (preNum postNum : ℕ) (conn : PyConn) :
    Except SynConnErr (List ℕ × List ℕ) :=
  match conn with
  | .noneConn => .error .connRequired
  | .connector i j => .ok (i, j)
  | .arr shape _ =>
    if shape.length ≠ 2 then .error (.notNdim2 shape.length)
    else if ¬(shape.headD 0 = preNum ∧ shape.getD 1 0 = postNum) then
      .error (.connShapeMismatch preNum postNum)
    else .error .enumerateIntTypeError
  | .dict oi oj =>
    match oi, oj with
    | Option.none, _ => .error .missingI
    | some _, Option.none => .error .missingJ
    | some i, some j => .ok (i, j)
  | .badType => .error .connTypeError

/-- The delay block of `SynConn.__init__`: `None` gives `delay_len = 0`,
an `int` or `float` delay gives `delay_len = int(np.ceil(delay / dt))`
with the process-wide `dt`, and any other type raises `ValueError`. -/
def synConnDelayLen (delay : PyVal) (dt : ℚ) : Except SynConnErr ℤ :=
  match delay with
  | .pynone => .ok 0
  | .int n => .ok (Int.ceil ((n : ℚ) / dt))
  | .float q => .ok (Int.ceil (q / dt))
  | .str _ => .error .delayTypeError

/-- `SynConn.__init__(create_func, delay, pre_group, post_group, conn,
num, ...)` up to the `SynState` allocation: with both groups given
(`groups = some (pre_group.num, post_group.num)`) the edges are extracted
and `num = len(pre_idx)` overrides any `num` argument; with a group
missing, the `num` argument is required; then
`assert 0 < num < 2 ** 64` and the delay conversion run. -/
def synConnInit (groups : Option (ℕ × ℕ)) (conn : PyConn) (numArg : Option ℕ)
    (delay : PyVal) (dt : ℚ) : Except SynConnErr SynConnData :=
  match groups with
  | some pp =>
    match synConnEdges pp.1 pp.2 conn with
    | .error e => .error e
    | .ok ij =>
      if 0 < ij.1.length ∧ ij.1.length < 2 ^ 64 then
        match synConnDelayLen delay dt with
        | .error e => .error e
        | .ok dlen => .ok ⟨ij.1.length, some ij, dlen⟩
      else .error (.numOutOfRange ij.1.length)
  | Option.none =>
    match numArg with
    | Option.none => .error .numRequired
    | some n =>
      if 0 < n ∧ n < 2 ^ 64 then
        match synConnDelayLen delay dt with
        | .error e => .error e
        | .ok dlen => .ok ⟨n, Option.none, dlen⟩
      else .error (.numOutOfRange n)

/-! ## npbrain/core_system/synapse_connection.py : step merging -/

/-- The call string interpolated by `SynConn._merge_steps`: the ensemble
name followed by `.ST._update_delay_indices()`. -/
def updateDelayIndicesCall (name : String) : String :=
  name ++ ".ST._update_delay_indices()"

/-- `SynConn._merge_steps`: takes the execution plan built by
`BaseEnsemble._merge_steps` (modelled from the spec as the
ordered model update/output call strings of the ensemble, since
`base_objects.py` is outside the sources of this file) and appends the delay-cursor advance call. -/
def synConnMergeSteps (name : String) (baseCodes : List String) : List String :=
  baseCodes ++ [updateDelayIndicesCall name]

/-! ## npbrain/core_system/synapse_connection.py : post_cond_by_post2syn -/

/-- Numpy fancy indexing `a[idx]`: out-of-range entries raise
`IndexError`. -/
def npFancyIndex (a : List ℚ) (idx : List ℕ) : Except String (List ℚ) :=
  idx.mapM (fun k => if h : k < a.length then .ok (a.get ⟨k, h⟩)
                     else .error "IndexError")

/-- `post_cond_by_post2syn(syn_val, post2syn)` as written in the source:
`g_val[i] = syn_val[syn_idx]` assigns the fancy-indexed ARRAY to the
scalar slot `g_val[i]` (there is no `.sum()`), which numpy accepts only
when `syn_idx` has exactly one element and otherwise raises
`ValueError: setting an array element with a sequence`. -/
def post_cond_by_post2syn (syn_val : List ℚ) (post2syn : List (List ℕ)) :
    Except String (List ℚ) :=
  post2syn.mapM (fun syn_idx =>
    match npFancyIndex syn_val syn_idx with
    | .error e => .error e
    | .ok [v] => .ok v
    | .ok _ => .error "ValueError: setting an array element with a sequence.")

/-! ## Atomic-scatter reduction, modelled from the spec -/

/-- Modelled from the spec: the native CPU/GPU kernel behind
`coo_atomic_sum_p1` is compiled code outside the sources of this repository;
the spec describes it as summing `values[k]` into `output[dest_ids[k]]`
over a zero-initialised output of length `dest_count`.  The model
performs exactly that scatter-add loop over the edges. -/
def scatter_sum (values : List ℚ) (dest_ids : List ℕ) (dest_count : ℕ) :
    List ℚ :=
  (dest_ids.zip values).foldl
    (fun out p => out.set p.1 (out.getD p.1 0 + p.2))
    (List.replicate dest_count 0)

/-- The per-destination sum named by the semantics clause of the spec:
`sum of values[k] for every k where dest_ids[k] == d`. -/
def destSum (values : List ℚ) (dest_ids : List ℕ) (d : ℕ) : ℚ :=
  (((dest_ids.zip values).filter (fun p => p.1 = d)).map (fun p => p.2)).sum

/-! ## Theorems -/

theorem synConnInit_ok_fields (groups : Option (ℕ × ℕ)) (conn : PyConn)
    (numArg : Option ℕ) (delay : PyVal) (dt : ℚ) (r : SynConnData)
    (h : synConnInit groups conn numArg delay dt = .ok r) :
    (0 < r.num ∧ r.num < 2 ^ 64) ∧
    (∀ ij, r.ids = some ij → r.num = ij.1.length) ∧
    (groups.isSome = true → r.ids.isSome = true) ∧
    synConnDelayLen delay dt = .ok r.delay_len := by
  unfold synConnInit at h
  split at h
  · split at h
    · exact Except.noConfusion h
    · split at h
      · split at h
        · exact Except.noConfusion h
        · injection h with h2
          subst h2
          rename_i hn _ _ hd
          refine ⟨hn, ?_, by simp, by rw [hd]⟩
          intro ij2 hij
          simp only [Option.some.injEq] at hij
          subst hij
          rfl
      · exact Except.noConfusion h
  · split at h
    · exact Except.noConfusion h
    · split at h
      · split at h
        · exact Except.noConfusion h
        · injection h with h2
          subst h2
          rename_i hn _ _ hd
          exact ⟨hn, by simp, by simp, by rw [hd]⟩
      · exact Except.noConfusion h

/-- C5: every successfully constructed `SynConn` satisfies
`0 < num < 2 ^ 64`; when edge arrays were extracted (which happens exactly
when pre/post groups are given), `num` equals the length of `pre_ids`.
In the embedding the constructor is the only producer of `SynConnData`
and nothing mutates it, matching the set-once reading; the keyword
protection that enforces this at runtime lives in `base_objects.py`,
outside the sources of this file. -/
theorem synConn_num_invariant (groups : Option (ℕ × ℕ)) (conn : PyConn)
    (numArg : Option ℕ) (delay : PyVal) (dt : ℚ) (r : SynConnData)
    (h : synConnInit groups conn numArg delay dt = .ok r) :
    0 < r.num ∧ r.num < 2 ^ 64 ∧
    (∀ ij, r.ids = some ij → r.num = ij.1.length) ∧
    (groups.isSome = true → r.ids.isSome = true) := by
  obtain ⟨⟨h1, h2⟩, h3, h4, _⟩ := synConnInit_ok_fields groups conn numArg delay dt r h
  exact ⟨h1, h2, h3, h4⟩

theorem synConn_num_invariant_witness :
    0 < (⟨1, some ([0], [0]), 0⟩ : SynConnData).num ∧
    (⟨1, some ([0], [0]), 0⟩ : SynConnData).num < 2 ^ 64 ∧
    (∀ ij, (⟨1, some ([0], [0]), 0⟩ : SynConnData).ids = some ij →
      (⟨1, some ([0], [0]), 0⟩ : SynConnData).num = ij.1.length) ∧
    ((some ((1 : ℕ), (1 : ℕ))).isSome = true →
      (⟨1, some ([0], [0]), 0⟩ : SynConnData).ids.isSome = true) :=
  synConn_num_invariant (some (1, 1)) (.dict (some [0]) (some [0])) Option.none
    .pynone 1 ⟨1, some ([0], [0]), 0⟩ (by rfl)

/-- C2: the claim says a 0/1 connection matrix of the right shape is
turned into exactly its nonzero entries as edges.  The code never gets
there: after the shape checks pass, the loop header
`for i in enumerate(pre_group.num)` raises `TypeError` (an `int` is not
iterable), so constructing a `SynConn` from the 2x2 identity-like matrix
fails instead of extracting the edges (0,0) and (1,1). -/
theorem synConn_matrix_type_error :
    synConnInit (some (2, 2)) (.arr [2, 2] [[1, 0], [0, 1]]) Option.none
      (.float 0) (1 / 10) = .error .enumerateIntTypeError := by rfl

/-- C7: an ndarray `conn` that is not 2-D fails the
`np.ndim(conn) == 2` assert (message carrying the offending rank, with
the expected `2D` spelled in the text), and a 2-D `conn` whose shape is
not `(pre_group.num, post_group.num)` fails the shape assert whose
message carries the expected sizes; in both cases construction returns an
error and no `SynConn` value is produced. -/
theorem synConn_shape_error (preNum postNum : ℕ) (shape : List ℕ)
    (entries : List (List ℤ)) (numArg : Option ℕ) (delay : PyVal) (dt : ℚ) :
    (shape.length ≠ 2 →
      synConnInit (some (preNum, postNum)) (.arr shape entries) numArg delay dt
        = .error (.notNdim2 shape.length)) ∧
    (shape.length = 2 → ¬(shape.headD 0 = preNum ∧ shape.getD 1 0 = postNum) →
      synConnInit (some (preNum, postNum)) (.arr shape entries) numArg delay dt
        = .error (.connShapeMismatch preNum postNum)) := by
  constructor
  · intro h
    simp [synConnInit, synConnEdges, h]
  · intro h2 hs
    have t1 : ¬(shape.length ≠ 2) := by simp [h2]
    simp only [synConnInit, synConnEdges]
    rw [if_neg t1, if_pos hs]

theorem synConn_shape_error_witness :
    (([3] : List ℕ).length ≠ 2 ∧
      synConnInit (some (2, 2)) (.arr [3] []) Option.none .pynone 1
        = .error (.notNdim2 1)) ∧
    (([2, 3] : List ℕ).length = 2 ∧
      ¬(([2, 3] : List ℕ).headD 0 = 2 ∧ ([2, 3] : List ℕ).getD 1 0 = 2) ∧
      synConnInit (some (2, 2)) (.arr [2, 3] []) Option.none .pynone 1
        = .error (.connShapeMismatch 2 2)) :=
  ⟨⟨by decide, (synConn_shape_error 2 2 [3] [] Option.none .pynone 1).1 (by decide)⟩,
   ⟨by decide, by decide,
    (synConn_shape_error 2 2 [2, 3] [] Option.none .pynone 1).2 (by decide) (by decide)⟩⟩

/-- C10 counterexample: `delay_len` is not always nonnegative — the
numeric delay `-1.0` with `dt = 0.1` is accepted and yields
`delay_len = ceil(-1/0.1) = -10 < 0`. -/
theorem synConn_negative_delay_len :
    synConnInit (some (1, 1)) (.dict (some [0]) (some [0])) Option.none
        (.float (-1)) (1 / 10)
      = .ok ⟨1, some ([0], [0]), -10⟩ ∧ (-10 : ℤ) < 0 := by
  constructor
  · norm_num [synConnInit, synConnEdges, synConnDelayLen]
    exact_mod_cast @Int.ceil_intCast ℚ _ _ (-10)
  · decide

/-- C10 amended: `delay = None` gives `delay_len = 0`; a numeric (int or
float) delay `d` gives `delay_len = ceil(d / dt)` for the current `dt`,
which is nonnegative whenever `d ≥ 0`; a delay of any other type makes
construction fail, never returning a `SynConn`.  (The unamended claim
that `delay_len` is always nonnegative fails for negative `d`.) -/
theorem synConn_delay_len_spec (groups : Option (ℕ × ℕ)) (conn : PyConn)
    (numArg : Option ℕ) (dt : ℚ) (hdt : 0 < dt) :
    (∀ r, synConnInit groups conn numArg .pynone dt = .ok r → r.delay_len = 0) ∧
    (∀ q r, synConnInit groups conn numArg (.float q) dt = .ok r →
      r.delay_len = Int.ceil (q / dt)) ∧
    (∀ q r, 0 ≤ q → synConnInit groups conn numArg (.float q) dt = .ok r →
      0 ≤ r.delay_len) ∧
    (∀ n r, synConnInit groups conn numArg (.int n) dt = .ok r →
      r.delay_len = Int.ceil ((n : ℚ) / dt)) ∧
    (∀ s r, synConnInit groups conn numArg (.str s) dt ≠ .ok r) := by
  refine ⟨?_, ?_, ?_, ?_, ?_⟩
  · intro r h
    have hd := (synConnInit_ok_fields _ _ _ _ _ _ h).2.2.2
    simp only [synConnDelayLen, Except.ok.injEq] at hd
    exact hd.symm
  · intro q r h
    have hd := (synConnInit_ok_fields _ _ _ _ _ _ h).2.2.2
    simp only [synConnDelayLen, Except.ok.injEq] at hd
    exact hd.symm
  · intro q r hq h
    have hd := (synConnInit_ok_fields _ _ _ _ _ _ h).2.2.2
    simp only [synConnDelayLen, Except.ok.injEq] at hd
    rw [← hd]
    exact Int.ceil_nonneg (div_nonneg hq (le_of_lt hdt))
  · intro n r h
    have hd := (synConnInit_ok_fields _ _ _ _ _ _ h).2.2.2
    simp only [synConnDelayLen, Except.ok.injEq] at hd
    exact hd.symm
  · intro s r h
    have hd := (synConnInit_ok_fields _ _ _ _ _ _ h).2.2.2
    exact Except.noConfusion hd

theorem synConn_delay_len_spec_witness :
    (0 : ℚ) < 1 ∧
    (∀ r, synConnInit (some (1, 1)) (.dict (some [0]) (some [0])) Option.none
        .pynone 1 = .ok r → r.delay_len = 0) :=
  ⟨one_pos,
   (synConn_delay_len_spec (some (1, 1)) (.dict (some [0]) (some [0]))
      Option.none 1 one_pos).1⟩

/-- C3 counterexample: a call with `post_ids = [5]` and `post_num = 3`
(an out-of-range destination) does not fail: the wrapper returns the
bound primitive call. -/
theorem coo_atomic_sum_oob_returns :
    exceptIsOk (coo_atomic_sum ⟨[1], .float32⟩ ⟨[5], .uint32⟩ 3 Option.none) = true ∧
    (3 : ℕ) ≤ 5 := ⟨by rfl, by decide⟩

/-- C3 amended: `coo_atomic_sum` performs no bound check of `post_ids`
against `post_num` — whenever the checks it does perform (length, dtype
equality, index dtype, value dtype, value size) pass, the call returns
the bound primitive arguments even when some entry of `post_ids` is
`≥ post_num` (hypothesis `_hoob`, deliberately unused by the proof);
out-of-range behaviour is left to the native kernel. -/
theorem coo_atomic_sum_no_bound_check (values : ValArray) (pre post : IdxArray)
    (n : ℕ)
    (hlen : pre.data.length = post.data.length)
    (hdt : pre.dtype = post.dtype)
    (hpost : post.dtype = .uint32 ∨ post.dtype = .uint64)
    (hval : values.dtype = .float32 ∨ values.dtype = .float64)
    (hsize : values.data.length ≠ 1 →
      pre.data ≠ [] ∧ pre.data.foldr max 0 < values.data.length)
    (_hoob : ∃ k ∈ post.data, n ≤ k) :
    coo_atomic_sum values post n (some pre)
      = .ok ⟨values.data,
             (if values.data.length ≠ 1 then pre.data else post.data),
             post.data, n⟩ := by
  by_cases hs : values.data.length = 1
  · have hiff : (if values.data.length ≠ 1 then pre.data else post.data) = post.data := by
      simp [hs]
    rw [hiff]
    rcases hpost with hp | hp <;> rcases hval with hv | hv <;>
      simp [coo_atomic_sum, hs, hp, hv]
  · obtain ⟨hne, hmax⟩ := hsize hs
    have hiff : (if values.data.length ≠ 1 then pre.data else post.data) = pre.data := by
      simp [hs]
    rw [hiff]
    rcases hpost with hp | hp <;> rcases hval with hv | hv <;>
      simp [coo_atomic_sum, hs, hlen, hdt, hp, hv, hne, not_le.mpr hmax]

theorem coo_atomic_sum_no_bound_check_witness :
    coo_atomic_sum ⟨[1], .float32⟩ ⟨[5], .uint32⟩ 3 (some ⟨[5], .uint32⟩)
      = .ok ⟨[1], (if ([1] : List ℚ).length ≠ 1 then [5] else [5]), [5], 3⟩ :=
  coo_atomic_sum_no_bound_check ⟨[1], .float32⟩ ⟨[5], .uint32⟩ ⟨[5], .uint32⟩ 3
    rfl rfl (Or.inl rfl) (Or.inl rfl) (by decide) ⟨5, by decide, by decide⟩

theorem atomicSum_dtype_err_source (values : ValArray) (post : IdxArray) (n : ℕ)
    (popt : Option IdxArray)
    (h : isDtypeMismatchErr (coo_atomic_sum values post n popt) = true) :
    ∃ pre, popt = some pre ∧ values.data.length ≠ 1 ∧ pre.dtype ≠ post.dtype := by
  unfold coo_atomic_sum at h
  split at h
  · simp [isDtypeMismatchErr] at h
  · rename_i pre' heq
    split at h
    · simp [isDtypeMismatchErr] at h
    · split at h
      · rename_i hd
        by_cases hs : values.data.length = 1
        · rw [if_neg (not_not_intro hs)] at heq
          injection heq with h2
          subst h2
          exact absurd rfl hd
        · rw [if_pos hs] at heq
          exact ⟨pre', heq, hs, hd⟩
      · split at h
        · simp [isDtypeMismatchErr] at h
        · split at h
          · simp [isDtypeMismatchErr] at h
          · split at h
            · simp [isDtypeMismatchErr] at h
            · split at h
              · simp [isDtypeMismatchErr] at h
              · simp [isDtypeMismatchErr] at h

/-- C4 amended: when `values` is non-scalar, an explicit `pre_ids` is
given with the same length as `post_ids`, and the two index dtypes
differ, the call fails with the dtype-mismatch `ValueError` carrying both
offending dtypes; when the dtypes agree (or `values` is scalar, in which
case `pre_ids` is replaced by `post_ids`), the dtype-mismatch error is
never raised.  (The unamended claim fails when the lengths differ too,
because the length check runs first.) -/
theorem coo_atomic_sum_dtype_spec (values : ValArray) (pre post : IdxArray)
    (n : ℕ) :
    (values.data.length ≠ 1 → pre.data.length = post.data.length →
      pre.dtype ≠ post.dtype →
      coo_atomic_sum values post n (some pre)
        = .error (.dtypeMismatch pre.dtype post.dtype)) ∧
    (pre.dtype = post.dtype →
      isDtypeMismatchErr (coo_atomic_sum values post n (some pre)) = false) ∧
    (∀ popt, values.data.length = 1 →
      isDtypeMismatchErr (coo_atomic_sum values post n popt) = false) := by
  refine ⟨?_, ?_, ?_⟩
  · intro hs hlen hd
    simp [coo_atomic_sum, hs, hlen, hd]
  · intro hd
    by_contra hc
    obtain ⟨pre2, hpe, _, hd2⟩ :=
      atomicSum_dtype_err_source values post n (some pre)
        (Bool.of_not_eq_false hc)
    injection hpe with h2
    subst h2
    exact hd2 hd
  · intro popt hs
    by_contra hc
    obtain ⟨pre2, _, hlen2, _⟩ :=
      atomicSum_dtype_err_source values post n popt (Bool.of_not_eq_false hc)
    exact hlen2 hs

theorem coo_atomic_sum_dtype_spec_witness :
    (([1, 2] : List ℚ).length ≠ 1 ∧
     coo_atomic_sum ⟨[1, 2], .float32⟩ ⟨[0, 1], .uint64⟩ 5 (some ⟨[7, 8], .uint32⟩)
       = .error (.dtypeMismatch .uint32 .uint64)) ∧
    isDtypeMismatchErr
      (coo_atomic_sum ⟨[1, 2], .float32⟩ ⟨[0, 1], .uint32⟩ 5
        (some ⟨[7, 8], .uint32⟩)) = false :=
  ⟨⟨by decide,
    (coo_atomic_sum_dtype_spec ⟨[1, 2], .float32⟩ ⟨[7, 8], .uint32⟩
      ⟨[0, 1], .uint64⟩ 5).1 (by decide) (by decide) (by decide)⟩,
   (coo_atomic_sum_dtype_spec ⟨[1, 2], .float32⟩ ⟨[7, 8], .uint32⟩
      ⟨[0, 1], .uint32⟩ 5).2.1 (by decide)⟩

/-- C4 counterexample: with incompatible dtypes but mismatched lengths
(`pre_ids` has 2 entries, `post_ids` has 1) the call fails with the
length-mismatch error, not the dtype-mismatch error the claim
promises. -/
theorem coo_atomic_sum_dtype_cex :
    coo_atomic_sum ⟨[1, 2], .float32⟩ ⟨[0], .uint64⟩ 4 (some ⟨[0, 1], .uint32⟩)
      = .error (.lengthMismatch 2 1) ∧
    isDtypeMismatchErr
      (coo_atomic_sum ⟨[1, 2], .float32⟩ ⟨[0], .uint64⟩ 4
        (some ⟨[0, 1], .uint32⟩)) = false ∧
    IDtype.uint32 ≠ IDtype.uint64 := ⟨by rfl, by rfl, by decide⟩

/-- C6: the plan returned by `SynConn._merge_steps` contains the
delay-cursor advance call `name.ST._update_delay_indices()` exactly once,
it is the last entry, and every occurrence of it sits at the index after
all the model update/output steps — provided the base plan (modelled from
the spec, `base_objects.py` being outside the sources of this file) does
not itself contain that call. -/
theorem synConnMergeSteps_spec (name : String) (baseCodes : List String)
    (h : updateDelayIndicesCall name ∉ baseCodes) :
    (synConnMergeSteps name baseCodes).count (updateDelayIndicesCall name) = 1 ∧
    (synConnMergeSteps name baseCodes).getLast?
      = some (updateDelayIndicesCall name) ∧
    ∀ i : Fin (synConnMergeSteps name baseCodes).length,
      (synConnMergeSteps name baseCodes).get i = updateDelayIndicesCall name →
      (i : ℕ) = baseCodes.length := by
  refine ⟨?_, ?_, ?_⟩
  · simp [synConnMergeSteps, List.count_append, List.count_eq_zero.mpr h]
  · simp [synConnMergeSteps]
  · intro i hi
    rcases Nat.lt_or_ge (i : ℕ) baseCodes.length with hlt | hge
    · exfalso
      apply h
      have hg : (synConnMergeSteps name baseCodes).get i
          = baseCodes.get ⟨(i : ℕ), hlt⟩ := by
        simp only [synConnMergeSteps, List.get_eq_getElem]
        exact List.getElem_append_left hlt
      rw [hg] at hi
      rw [← hi]
      exact baseCodes.get_mem _ hlt
    · have hlen : (i : ℕ) < baseCodes.length + 1 := by
        have := i.isLt
        simpa [synConnMergeSteps] using this
      omega

theorem synConnMergeSteps_spec_witness :
    updateDelayIndicesCall "syn0" ∉ ["syn0.update()", "syn0.output()"] ∧
    ((synConnMergeSteps "syn0" ["syn0.update()", "syn0.output()"]).count
        (updateDelayIndicesCall "syn0") = 1 ∧
     (synConnMergeSteps "syn0" ["syn0.update()", "syn0.output()"]).getLast?
        = some (updateDelayIndicesCall "syn0") ∧
     ∀ i : Fin (synConnMergeSteps "syn0" ["syn0.update()", "syn0.output()"]).length,
       (synConnMergeSteps "syn0" ["syn0.update()", "syn0.output()"]).get i
          = updateDelayIndicesCall "syn0" →
       (i : ℕ) = (["syn0.update()", "syn0.output()"] : List String).length) :=
  ⟨by decide,
   synConnMergeSteps_spec "syn0" ["syn0.update()", "syn0.output()"] (by decide)⟩

/-- C8: `get_dt` on the initial module state returns the default `0.1`;
after `set_dt(x)` with a float `x` every subsequent `get_dt` returns `x`
(reads do not change the state, so the value persists until the next
`set_dt`); `set_dt` on a non-float argument fails the
`isinstance(dt, float)` assert and leaves the state unchanged. -/
theorem set_get_dt_spec (x cur : ℚ) (v : PyVal) (hv : v.isFloat = false) :
    get_dt DT_DEFAULT = 1 / 10 ∧
    set_dt (.float x) cur = (x, Option.none) ∧
    get_dt (set_dt (.float x) cur).1 = x ∧
    set_dt v cur = (cur, some "AssertionError") := by
  refine ⟨rfl, rfl, rfl, ?_⟩
  cases v <;> simp_all [set_dt, PyVal.isFloat]

theorem set_get_dt_spec_witness :
    (PyVal.int 3).isFloat = false ∧
    (get_dt DT_DEFAULT = 1 / 10 ∧
     set_dt (.float 2) DT_DEFAULT = (2, Option.none) ∧
     get_dt (set_dt (.float 2) DT_DEFAULT).1 = 2 ∧
     set_dt (.int 3) DT_DEFAULT = (DT_DEFAULT, some "AssertionError")) :=
  ⟨by rfl, set_get_dt_spec 2 DT_DEFAULT (.int 3) (by rfl)⟩

/-- C9: `use_backend` on a name outside numpy/numba/jax raises a
`ValueError` whose message carries the offending name and the supported
backends, leaving `BACKEND_NAME` unchanged; on a supported name it
succeeds and `get_backend_name` afterwards returns that name. -/
theorem use_backend_spec (name good g : String)
    (hbad : ¬(name = "numpy" ∨ name = "numba" ∨ name = "jax"))
    (hgood : good = "numpy" ∨ good = "numba" ∨ good = "jax") :
    use_backend name g
      = (g, some ("Unknown backend \"" ++ name ++
          "\", now we only support: numpy, numba, jax.")) ∧
    get_backend_name (use_backend name g).1 = get_backend_name g ∧
    (use_backend good g).2 = Option.none ∧
    get_backend_name (use_backend good g).1 = good := by
  refine ⟨?_, ?_, ?_, ?_⟩ <;>
    simp [use_backend, unknownBackendMsg, get_backend_name, hbad, hgood]

theorem use_backend_spec_witness :
    ¬("torch" = "numpy" ∨ "torch" = "numba" ∨ "torch" = "jax") ∧
    ("jax" = "numpy" ∨ "jax" = "numba" ∨ "jax" = "jax") ∧
    (use_backend "torch" "numpy"
       = ("numpy", some ("Unknown backend \"" ++ "torch" ++
           "\", now we only support: numpy, numba, jax.")) ∧
     get_backend_name (use_backend "torch" "numpy").1
       = get_backend_name "numpy" ∧
     (use_backend "jax" "numpy").2 = Option.none ∧
     get_backend_name (use_backend "jax" "numpy").1 = "jax") :=
  ⟨by decide, by decide,
   use_backend_spec "torch" "jax" "numpy" (by decide) (by decide)⟩

/-- C1: the claim says `post_cond_by_post2syn` returns, for each
postsynaptic neuron, the sum of `syn_val` over the indices in
`post2syn[j]` — the scatter-sum semantics which on
`values = [1,2,3]`, `dest_ids = [0,1,0]`, `dest_count = 2` gives
`[4, 2]`.  The code has no `.sum()`: it assigns the fancy-indexed array
to the scalar slot `g_val[i]`, so on `syn_val = [1,2,3]`,
`post2syn = [[0,2],[1]]` it raises `ValueError` instead of returning
`[4, 2]`, the value the (spec-modelled) scatter semantics produces on the
same data. -/
theorem post_cond_missing_sum_bug :
    post_cond_by_post2syn [1, 2, 3] [[0, 2], [1]]
      = .error "ValueError: setting an array element with a sequence." ∧
    scatter_sum [1, 2, 3] [0, 1, 0] 2 = [4, 2] := by
  refine ⟨by rfl, ?_⟩
  norm_num [scatter_sum, List.zip, List.zipWith, List.replicate, List.set,
    List.getD]

theorem scatter_foldl_length (l : List (ℕ × ℚ)) (out : List ℚ) :
    (l.foldl (fun o p => o.set p.1 (o.getD p.1 0 + p.2)) out).length
      = out.length := by
  induction l generalizing out with
  | nil => rfl
  | cons p l ih => rw [List.foldl_cons, ih, List.length_set]

theorem scatter_foldl_getD (l : List (ℕ × ℚ)) (out : List ℚ) (d : ℕ)
    (hl : ∀ p ∈ l, p.1 < out.length) :
    (l.foldl (fun o p => o.set p.1 (o.getD p.1 0 + p.2)) out).getD d 0
      = out.getD d 0 + ((l.filter (fun p => p.1 = d)).map (fun p => p.2)).sum := by
  induction l generalizing out with
  | nil => simp
  | cons p l ih =>
    have hp : p.1 < out.length := hl p (List.mem_cons_self p l)
    rw [List.foldl_cons,
      ih _ (fun q hq => by
        rw [List.length_set]
        exact hl q (List.mem_cons_of_mem p hq))]
    by_cases hd : p.1 = d
    · subst hd
      have hset : (out.set p.1 (out.getD p.1 0 + p.2)).getD p.1 0
          = out.getD p.1 0 + p.2 := by
        simp [List.getD_eq_getElem?_getD, List.getElem?_set_eq_of_lt _ hp]
      rw [hset]
      simp [List.filter_cons]
      ring
    · have hset : (out.set p.1 (out.getD p.1 0 + p.2)).getD d 0
          = out.getD d 0 := by
        simp [List.getD_eq_getElem?_getD, List.getElem?_set_ne hd]
      rw [hset]
      simp [List.filter_cons, hd]

/-- The scatter-add loop realises the per-destination-sum semantics:
the output has length `dest_count` and, at every destination `d`, carries
the sum of the values routed to `d`, provided every destination index is
in range. -/
theorem scatter_sum_spec (values : List ℚ) (dest_ids : List ℕ)
    (dest_count : ℕ) (hids : ∀ k ∈ dest_ids, k < dest_count) (d : ℕ) :
    (scatter_sum values dest_ids dest_count).length = dest_count ∧
    (scatter_sum values dest_ids dest_count).getD d 0
      = destSum values dest_ids d := by
  constructor
  · rw [scatter_sum, scatter_foldl_length, List.length_replicate]
  · rw [scatter_sum, destSum,
      scatter_foldl_getD _ _ _ (fun p hp => by
        rw [List.length_replicate]
        exact hids p.1 (List.of_mem_zip hp).1)]
    simp [List.getD_eq_getElem?_getD, List.getElem?_replicate]
    split <;> simp

end BrainPy
